import Mathlib

/-!
# Feature sets (`feature/set.go`)

A shallow embedding of the `Set` enum of package `feature` and of its three
methods `valid`, `String` and `Maximum`, followed by the properties of these
methods.

* `Set` is Go's `type Set uint8`: the numbers `0..255`.
* `lnwire.FeatureBit` is Go's `uint16`; its values are modelled as natural
  numbers, the largest being `MaxUint16`.
* `lnwire.MaxBolt11Feature` is declared in another package; `Set.Maximum`
  takes it as its first argument.
-/

namespace feature

/-- Go `type Set uint8`: an enum identifying the various feature sets. -/
abbrev Set := Fin 256

/-- Go `math.MaxUint16`, that is `1<<16 - 1`. -/
def MaxUint16 : Nat := 1 <<< 16 - 1

/-- First constant of the `iota` block (`iota = 0`): features sent in an Init
message. -/
def SetInit : Set := ⟨0, by decide⟩

/-- Second constant of the block (`iota = 1`): the legacy GlobalFeatures field. -/
def SetLegacyGlobal : Set := ⟨1, by decide⟩

/-- Third constant of the block (`iota = 2`): node announcements. -/
def SetNodeAnn : Set := ⟨2, by decide⟩

/-- Fourth constant of the block (`iota = 3`): invoices. -/
def SetInvoice : Set := ⟨3, by decide⟩

/-- Fifth constant of the block (`iota = 4`): AMP invoices. -/
def SetInvoiceAmp : Set := ⟨4, by decide⟩

/-- Last constant of the block (`iota = 5`): marks the end of the known sets. -/
def setSentinel : Set := ⟨5, by decide⟩

/-- Go `func (s Set) valid() bool { return s < setSentinel }`. -/
def Set.valid (s : Set) : Bool :=
  decide (s < setSentinel)

/-- Go `func (s Set) String() string`: a `switch` over the five named
constants, with `default: return "SetUnknown"`. -/
def Set.String (s : Set) : String :=
  if s = SetInit then "SetInit"
  else if s = SetLegacyGlobal then "SetLegacyGlobal"
  else if s = SetNodeAnn then "SetNodeAnn"
  else if s = SetInvoice then "SetInvoice"
  else if s = SetInvoiceAmp then "SetInvoiceAmp"
  else "SetUnknown"

/-- Go `func (s Set) Maximum() lnwire.FeatureBit`: the case
`SetInvoice, SetInvoiceAmp` returns `lnwire.MaxBolt11Feature` (the argument
`MaxBolt11Feature`), the `default` case returns `math.MaxUint16`. -/
def Set.Maximum (MaxBolt11Feature : Nat) (s : Set) : Nat :=
  if s = SetInvoice ∨ s = SetInvoiceAmp then MaxBolt11Feature
  else MaxUint16

/-! ## Auxiliary facts -/

theorem maxUint16_eq : MaxUint16 = 65535 := by decide

/-- Every `Set` value is one of the five named constants or has an ordinal of
at least five. -/
theorem set_cases (s : Set) :
    s = SetInit ∨ s = SetLegacyGlobal ∨ s = SetNodeAnn ∨ s = SetInvoice ∨
      s = SetInvoiceAmp ∨ 5 ≤ s.val := by
  obtain ⟨n, hn⟩ := s
  simp only [SetInit, SetLegacyGlobal, SetNodeAnn, SetInvoice, SetInvoiceAmp, Fin.mk.injEq]
  omega

/-- A value whose ordinal is at least five differs from all five named
constants. -/
theorem ne_of_five_le (s : Set) (h : 5 ≤ s.val) :
    s ≠ SetInit ∧ s ≠ SetLegacyGlobal ∧ s ≠ SetNodeAnn ∧ s ≠ SetInvoice ∧
      s ≠ SetInvoiceAmp := by
  obtain ⟨n, hn⟩ := s
  simp only [SetInit, SetLegacyGlobal, SetNodeAnn, SetInvoice, SetInvoiceAmp, ne_eq,
    Fin.mk.injEq]
  simp only at h
  omega

theorem valid_eq_true_iff (s : Set) : Set.valid s = true ↔ s.val < 5 := by
  simp only [Set.valid, decide_eq_true_eq, Fin.lt_def, setSentinel]

theorem valid_eq_false_iff (s : Set) : Set.valid s = false ↔ 5 ≤ s.val := by
  simp only [Set.valid, decide_eq_false_iff_not, Fin.lt_def, setSentinel, Nat.not_lt]

theorem string_of_five_le (s : Set) (h : 5 ≤ s.val) : Set.String s = "SetUnknown" := by
  obtain ⟨h0, h1, h2, h3, h4⟩ := ne_of_five_le s h
  simp [Set.String, h0, h1, h2, h3, h4]

theorem string_SetInit : Set.String SetInit = "SetInit" := by decide

theorem string_SetLegacyGlobal : Set.String SetLegacyGlobal = "SetLegacyGlobal" := by decide

theorem string_SetNodeAnn : Set.String SetNodeAnn = "SetNodeAnn" := by decide

theorem string_SetInvoice : Set.String SetInvoice = "SetInvoice" := by decide

theorem string_SetInvoiceAmp : Set.String SetInvoiceAmp = "SetInvoiceAmp" := by decide

theorem maximum_of_ne (m : Nat) (s : Set) (h3 : s ≠ SetInvoice) (h4 : s ≠ SetInvoiceAmp) :
    Set.Maximum m s = 65535 := by
  simp [Set.Maximum, h3, h4, maxUint16_eq]

theorem maximum_SetInvoice (m : Nat) : Set.Maximum m SetInvoice = m := by
  simp [Set.Maximum]

theorem maximum_SetInvoiceAmp (m : Nat) : Set.Maximum m SetInvoiceAmp = m := by
  simp [Set.Maximum]

/-! ## Properties of `valid`, `String` and `Maximum` -/

/-- C1: for every `Set` value `s`, `s.valid()` is true exactly when `s` is
strictly below `setSentinel`, that is exactly when its ordinal is one of
0, 1, 2, 3, 4; it is false exactly for the sentinel 5 and the ordinals above
it. -/
theorem valid_iff_lt_sentinel (s : Set) :
    (Set.valid s = true ↔ s < setSentinel) ∧
      (Set.valid s = true ↔ s.val ∈ [0, 1, 2, 3, 4]) ∧
      (Set.valid s = false ↔ 5 ≤ s.val) := by
  refine ⟨?_, ?_, valid_eq_false_iff s⟩
  · simp only [Set.valid, decide_eq_true_eq]
  · rw [valid_eq_true_iff]
    simp only [List.mem_cons, List.mem_singleton, List.not_mem_nil, or_false]
    omega

/-- C2: for every `Set` value `s` that is neither `SetInvoice` nor
`SetInvoiceAmp`, and likewise for every `s` with `s.valid() = false`,
`s.Maximum()` is 65535 (`math.MaxUint16`), whatever the invoice bound is. -/
theorem maximum_other_eq_maxUint16 (m : Nat) (s : Set)
    (h : (s ≠ SetInvoice ∧ s ≠ SetInvoiceAmp) ∨ Set.valid s = false) :
    Set.Maximum m s = 65535 ∧ Set.Maximum m s = MaxUint16 := by
  have key : s ≠ SetInvoice ∧ s ≠ SetInvoiceAmp := by
    rcases h with h | h
    · exact h
    · have h5 := ne_of_five_le s ((valid_eq_false_iff s).mp h)
      exact ⟨h5.2.2.2.1, h5.2.2.2.2⟩
  have e := maximum_of_ne m s key.1 key.2
  exact ⟨e, by rw [e, maxUint16_eq]⟩

/-- Witness of C2 at the out-of-range ordinal 99 with the invoice bound 5114. -/
theorem maximum_other_eq_maxUint16_witness :
    Set.valid (99 : Set) = false ∧
      Set.Maximum 5114 (99 : Set) = 65535 ∧ Set.Maximum 5114 (99 : Set) = MaxUint16 :=
  ⟨by decide, maximum_other_eq_maxUint16 5114 99 (Or.inr (by decide))⟩

/-- C3: `SetInvoice.Maximum()` equals `SetInvoiceAmp.Maximum()`, and both
equal the constant `lnwire.MaxBolt11Feature`, whatever its value `m`. -/
theorem maximum_invoice_eq_invoiceAmp (m : Nat) :
    Set.Maximum m SetInvoice = Set.Maximum m SetInvoiceAmp ∧
      Set.Maximum m SetInvoice = m ∧ Set.Maximum m SetInvoiceAmp = m := by
  refine ⟨?_, maximum_SetInvoice m, maximum_SetInvoiceAmp m⟩
  rw [maximum_SetInvoice, maximum_SetInvoiceAmp]

/-- C4: for `Set` values `s` and `t` that are none of the five real members,
`s.String()` is the constant `"SetUnknown"`, and so is `t.String()`: two
invalid values have the same display name. -/
theorem string_unknown_of_not_member (s t : Set)
    (hs : s ∉ [SetInit, SetLegacyGlobal, SetNodeAnn, SetInvoice, SetInvoiceAmp])
    (ht : t ∉ [SetInit, SetLegacyGlobal, SetNodeAnn, SetInvoice, SetInvoiceAmp]) :
    Set.String s = "SetUnknown" ∧ Set.String t = "SetUnknown" ∧
      Set.String s = Set.String t := by
  have aux : ∀ u : Set,
      u ∉ [SetInit, SetLegacyGlobal, SetNodeAnn, SetInvoice, SetInvoiceAmp] →
        Set.String u = "SetUnknown" := by
    intro u hu
    simp only [List.mem_cons, List.mem_singleton, List.not_mem_nil, or_false, not_or] at hu
    obtain ⟨h0, h1, h2, h3, h4⟩ := hu
    simp [Set.String, h0, h1, h2, h3, h4]
  exact ⟨aux s hs, aux t ht, by rw [aux s hs, aux t ht]⟩

/-- Witness of C4 at the sentinel and at the ordinal 255. -/
theorem string_unknown_of_not_member_witness :
    Set.String setSentinel = "SetUnknown" ∧ Set.String (255 : Set) = "SetUnknown" ∧
      Set.String setSentinel = Set.String (255 : Set) :=
  string_unknown_of_not_member setSentinel 255 (by decide) (by decide)

/-- C5: on the real members `String` is injective and never empty: for valid
`s` and `t`, equal names force `s = t`, and the name of `s` is not `""`. -/
theorem string_injective_on_valid (s t : Set)
    (hs : Set.valid s = true) (ht : Set.valid t = true) :
    (Set.String s = Set.String t → s = t) ∧ Set.String s ≠ "" := by
  have hs5 := (valid_eq_true_iff s).mp hs
  have ht5 := (valid_eq_true_iff t).mp ht
  constructor
  · intro heq
    rcases set_cases s with h | h | h | h | h | h <;>
      rcases set_cases t with k | k | k | k | k | k <;>
      first
        | omega
        | (subst h; subst k; first | rfl | exact absurd heq (by decide))
  · rcases set_cases s with h | h | h | h | h | h <;>
      first
        | omega
        | (subst h; decide)

/-- Witness of C5 at `SetInvoice` and `SetInvoiceAmp`. -/
theorem string_injective_on_valid_witness :
    Set.valid SetInvoice = true ∧ Set.valid SetInvoiceAmp = true ∧
      (Set.String SetInvoice = Set.String SetInvoiceAmp → SetInvoice = SetInvoiceAmp) ∧
      Set.String SetInvoice ≠ "" :=
  ⟨by decide, by decide, string_injective_on_valid SetInvoice SetInvoiceAmp (by decide) (by decide)⟩

/-- C6: `String` returns the identifier of each member: ordinal 0 gives
`"SetInit"`, 1 gives `"SetLegacyGlobal"`, 2 gives `"SetNodeAnn"`, 3 gives
`"SetInvoice"`, 4 gives `"SetInvoiceAmp"`; and for ordinal 3 `valid` is true
and `Maximum` is `lnwire.MaxBolt11Feature`, whatever its value `m`. -/
theorem string_of_member (m : Nat) :
    Set.String (0 : Set) = "SetInit" ∧
      Set.String (1 : Set) = "SetLegacyGlobal" ∧
      Set.String (2 : Set) = "SetNodeAnn" ∧
      Set.String (3 : Set) = "SetInvoice" ∧
      Set.String (4 : Set) = "SetInvoiceAmp" ∧
      Set.valid (3 : Set) = true ∧
      Set.Maximum m (3 : Set) = m :=
  ⟨string_SetInit, string_SetLegacyGlobal, string_SetNodeAnn, string_SetInvoice,
    string_SetInvoiceAmp, by decide, maximum_SetInvoice m⟩

/-- C7: the declared constants have the ordinals `SetInit = 0`,
`SetLegacyGlobal = 1`, `SetNodeAnn = 2`, `SetInvoice = 3`,
`SetInvoiceAmp = 4` and `setSentinel = 5`: the real members, in declaration
order, are the ordinals `0, 1, 2, 3, 4` without a gap, `setSentinel` is their
number, and it is strictly greater than each of them. -/
theorem constants_ordinals :
    (SetInit.val = 0 ∧ SetLegacyGlobal.val = 1 ∧ SetNodeAnn.val = 2 ∧
        SetInvoice.val = 3 ∧ SetInvoiceAmp.val = 4 ∧ setSentinel.val = 5) ∧
      [SetInit, SetLegacyGlobal, SetNodeAnn, SetInvoice, SetInvoiceAmp].map Fin.val
        = List.range setSentinel.val ∧
      [SetInit, SetLegacyGlobal, SetNodeAnn, SetInvoice, SetInvoiceAmp].length
        = setSentinel.val ∧
      (SetInit < setSentinel ∧ SetLegacyGlobal < setSentinel ∧ SetNodeAnn < setSentinel ∧
        SetInvoice < setSentinel ∧ SetInvoiceAmp < setSentinel) := by
  refine ⟨⟨rfl, rfl, rfl, rfl, rfl, rfl⟩, ?_, rfl, ?_⟩
  · decide
  · decide

/-- C8: with `lnwire.MaxBolt11Feature` at its upstream value 5114, the bounds
of `SetInvoice` and `SetInvoiceAmp` are strictly below the bound of every other
`Set` value, and the bound of every `Set` value is at most 65535. -/
theorem maximum_invoice_lt_other (m : Nat) (hm : m = 5114) :
    (∀ s : Set, s ≠ SetInvoice → s ≠ SetInvoiceAmp →
        Set.Maximum m SetInvoice < Set.Maximum m s ∧
          Set.Maximum m SetInvoiceAmp < Set.Maximum m s) ∧
      (∀ s : Set, Set.Maximum m s ≤ 65535) := by
  subst hm
  constructor
  · intro s h3 h4
    rw [maximum_SetInvoice, maximum_SetInvoiceAmp, maximum_of_ne 5114 s h3 h4]
    omega
  · intro s
    by_cases h3 : s = SetInvoice
    · rw [h3, maximum_SetInvoice]
      omega
    · by_cases h4 : s = SetInvoiceAmp
      · rw [h4, maximum_SetInvoiceAmp]
        omega
      · rw [maximum_of_ne 5114 s h3 h4]

/-- Witness of C8 at the upstream value 5114, read at `SetInit` (strict
comparison) and at `SetInvoice` (upper bound). -/
theorem maximum_invoice_lt_other_witness :
    (5114 : Nat) = 5114 ∧
      Set.Maximum 5114 SetInvoice < Set.Maximum 5114 SetInit ∧
      Set.Maximum 5114 SetInvoiceAmp < Set.Maximum 5114 SetInit ∧
      Set.Maximum 5114 SetInvoice ≤ 65535 :=
  ⟨rfl, ((maximum_invoice_lt_other 5114 rfl).1 SetInit (by decide) (by decide)).1,
    ((maximum_invoice_lt_other 5114 rfl).1 SetInit (by decide) (by decide)).2,
    (maximum_invoice_lt_other 5114 rfl).2 SetInvoice⟩

/-- C9: in every non-invoice context any representable feature bit passes the
bound: for `s` other than `SetInvoice` and `SetInvoiceAmp` and every 16-bit
feature bit `b` (`b ≤ 65535`), `b ≤ s.Maximum()`. -/
theorem bit_le_maximum_of_not_invoice (m : Nat) (s : Set) (b : Nat)
    (h3 : s ≠ SetInvoice) (h4 : s ≠ SetInvoiceAmp) (hb : b ≤ 65535) :
    b ≤ Set.Maximum m s := by
  rw [maximum_of_ne m s h3 h4]
  omega

/-- Witness of C9 at `SetNodeAnn` and the largest feature bit 65535. -/
theorem bit_le_maximum_of_not_invoice_witness :
    SetNodeAnn ≠ SetInvoice ∧ SetNodeAnn ≠ SetInvoiceAmp ∧ 65535 ≤ 65535 ∧
      65535 ≤ Set.Maximum 5114 SetNodeAnn :=
  ⟨by decide, by decide, by decide,
    bit_le_maximum_of_not_invoice 5114 SetNodeAnn 65535 (by decide) (by decide) (by decide)⟩

/-- C10: the name switch and the sentinel check agree on the real members: for
every `Set` value `s`, `s.String()` is `"SetUnknown"` exactly when
`s.valid()` is false. -/
theorem string_unknown_iff_not_valid (s : Set) :
    Set.String s = "SetUnknown" ↔ Set.valid s = false := by
  rw [valid_eq_false_iff]
  constructor
  · intro hstr
    rcases set_cases s with h | h | h | h | h | h
    · subst h; exact absurd hstr (by decide)
    · subst h; exact absurd hstr (by decide)
    · subst h; exact absurd hstr (by decide)
    · subst h; exact absurd hstr (by decide)
    · subst h; exact absurd hstr (by decide)
    · exact h
  · exact string_of_five_le s

/-- C11: only valid members receive the restricted bound. When the invoice
bound `m` (`lnwire.MaxBolt11Feature`, upstream 5114) differs from 65535, a
`Set` value `s` whose `Maximum` is `m` has `s.valid()` true; and every `s` with
`s.valid()` false gets the permissive bound 65535, which is not `m`. -/
theorem valid_of_maximum_eq_invoice_bound (m : Nat) (hm : m ≠ 65535) (s : Set) :
    (Set.Maximum m s = m → Set.valid s = true) ∧
      (Set.valid s = false → Set.Maximum m s = 65535 ∧ Set.Maximum m s ≠ m) := by
  constructor
  · intro hmax
    by_cases h3 : s = SetInvoice
    · subst h3; decide
    · by_cases h4 : s = SetInvoiceAmp
      · subst h4; decide
      · rw [maximum_of_ne m s h3 h4] at hmax
        exact absurd hmax.symm hm
  · intro hv
    have h5 := ne_of_five_le s ((valid_eq_false_iff s).mp hv)
    have e := maximum_of_ne m s h5.2.2.2.1 h5.2.2.2.2
    refine ⟨e, ?_⟩
    rw [e]
    exact fun h => hm h.symm

/-- Witness of C11 at the upstream bound 5114: `SetInvoiceAmp` carries the
invoice bound and is valid, the invalid ordinal 200 carries 65535. -/
theorem valid_of_maximum_eq_invoice_bound_witness :
    (5114 : Nat) ≠ 65535 ∧ Set.Maximum 5114 SetInvoiceAmp = 5114 ∧
      Set.valid SetInvoiceAmp = true ∧ Set.valid (200 : Set) = false ∧
      Set.Maximum 5114 (200 : Set) = 65535 ∧ Set.Maximum 5114 (200 : Set) ≠ 5114 :=
  ⟨by decide, by decide,
    (valid_of_maximum_eq_invoice_bound 5114 (by decide) SetInvoiceAmp).1 (by decide),
    by decide,
    (valid_of_maximum_eq_invoice_bound 5114 (by decide) 200).2 (by decide)⟩

end feature
